import Mathlib

/-!
Verification development for the `asm-leg` lowering and encoding backend
(`src/syntax.rs`). The Rust AST types (`Reg`, `Val`, `Bop`, `Uop`, `Cmp`,
`Cond`, `Stmt`) are embedded as Lean inductives, and the `Display`
instance for `Stmt` — the lowering/encoding backend — is embedded as
`renderStmt`/`renderBlock`. The wall clock read by `get_stamp`
(`SystemTime::now().duration_since(UNIX_EPOCH).as_nanos() as u32`) is
modelled as an abstract stream `σ : Nat → Nat` of nanosecond readings,
consumed left to right in the order the Rust code calls `get_stamp`; the
`as u32` cast is the reduction modulo `U32 = 2^32`.
-/

namespace AsmLeg

/-- Embedding of `enum Reg` (9 symbolic registers). -/
inductive Reg
  | R0 | R1 | R2 | R3 | R4 | R5 | P | I | O
deriving DecidableEq, Repr

/-- Embedding of `impl ToNum for Reg`: the 3-bit hardware index; `I` and `O`
both map to 7. -/
def Reg.toNum : Reg → Nat
  | .R0 => 0
  | .R1 => 1
  | .R2 => 2
  | .R3 => 3
  | .R4 => 4
  | .R5 => 5
  | .P => 6
  | .I => 7
  | .O => 7

/-- Embedding of `enum Val`: a register reference or an 8-bit immediate
(`u8`, hence `Fin 256`). -/
inductive Val
  | Reg (r : AsmLeg.Reg)
  | Im (x : Fin 256)
deriving DecidableEq, Repr

/-- Embedding of `impl ToNum for Val`. -/
def Val.toNum : Val → Nat
  | .Reg r => r.toNum
  | .Im x => x.val

/-- Embedding of `Val::is_reg`. -/
def Val.isReg : Val → Bool
  | .Reg _ => true
  | .Im _ => false

/-- Embedding of `Val::is_im`. -/
def Val.isIm : Val → Bool
  | .Reg _ => false
  | .Im _ => true

/-- Embedding of `enum Bop` (binary operators). -/
inductive Bop
  | Add | Sub | And | Or | Xor | Shl | Shr | Rol | Ror | Ashr | Mul | Div
deriving DecidableEq, Repr

/-- Embedding of `impl ToNum for Bop`. -/
def Bop.toNum : Bop → Nat
  | .Add => 0
  | .Sub => 1
  | .And => 2
  | .Or => 3
  | .Xor => 5
  | .Shl => 8
  | .Shr => 9
  | .Rol => 10
  | .Ror => 11
  | .Ashr => 12
  | .Mul => 13
  | .Div => 14

/-- Embedding of `enum Uop`. -/
inductive Uop
  | Not
deriving DecidableEq, Repr

/-- Embedding of `impl ToNum for Uop`. -/
def Uop.toNum : Uop → Nat
  | .Not => 4

/-- Embedding of `enum Cmp` (branch comparisons). -/
inductive Cmp
  | Eq | Neq | Lt | Leq | Gt | Geq
deriving DecidableEq, Repr

/-- Embedding of `Cmp::inv`, the logical inverse of a comparison. -/
def Cmp.inv : Cmp → Cmp
  | .Eq => .Neq
  | .Neq => .Eq
  | .Lt => .Geq
  | .Leq => .Gt
  | .Gt => .Leq
  | .Geq => .Lt

/-- Embedding of `impl ToNum for Cmp`. -/
def Cmp.toNum : Cmp → Nat
  | .Eq => 16
  | .Neq => 17
  | .Lt => 18
  | .Leq => 19
  | .Gt => 20
  | .Geq => 21

/-- Embedding of `struct Cond { lhs, rhs, cmp }`. -/
structure Cond where
  lhs : Val
  rhs : Val
  cmp : Cmp
deriving DecidableEq, Repr

/-- Embedding of `enum Stmt`.  Structured constructs carry `List Stmt`
bodies, mirroring `Vec<Stmt>`. -/
inductive Stmt
  | Bin (op : Bop) (l r : Val) (d : AsmLeg.Reg)
  | Un (op : Uop) (v : Val) (d : AsmLeg.Reg)
  | Hf (d : AsmLeg.Reg)
  | Call (s : String)
  | Args
  | Ret
  | Save (addr val : Val)
  | Load (addr : Val) (reg : AsmLeg.Reg)
  | Label (s : String)
  | Br (label : String) (cond : Cond)
  | While (cond : Cond) (block : List Stmt)
  | If (cond : Cond) (yes no : List Stmt)
  | Loop (block : List Stmt)

/-- Embedding of `fn fix_u`: add 128 to the opcode when the operand is an
immediate. -/
def fixU (op : Nat) (x : Val) : Nat :=
  op + (if x.isIm then 128 else 0)

/-- Embedding of `fn fix_b`: add 128 (resp. 64) to the opcode when the left
(resp. right) operand is an immediate. -/
def fixB (op : Nat) (l r : Val) : Nat :=
  op + (if l.isIm then 128 else 0) + (if r.isIm then 64 else 0)

/-- Embedding of `const LOAD: u8 = 6`. -/
def LOAD : Nat := 6

/-- Embedding of `const SAVE: u8 = 7`. -/
def SAVE : Nat := 7

/-- Embedding of `const HF: u8 = 15`. -/
def HF : Nat := 15

/-- Width of `u32`: `get_stamp` truncates the nanosecond reading with
`as u32`. -/
def U32 : Nat := 4294967296

/-- One hexadecimal digit, uppercase, as produced by Rust's `{:X}`
formatting. -/
def hexDigit : Nat → Char
  | 0 => '0'
  | 1 => '1'
  | 2 => '2'
  | 3 => '3'
  | 4 => '4'
  | 5 => '5'
  | 6 => '6'
  | 7 => '7'
  | 8 => '8'
  | 9 => '9'
  | 10 => 'A'
  | 11 => 'B'
  | 12 => 'C'
  | 13 => 'D'
  | 14 => 'E'
  | 15 => 'F'
  | _ => '*'

/-- Digit accumulation for `hexChars`, structurally recursive on a fuel
argument (the fuel is always sufficient, as with `Nat.toDigitsCore`). -/
def hexCharsAux : Nat → Nat → List Char
  | 0, _ => []
  | fuel + 1, n =>
      if n < 16 then [hexDigit n]
      else hexCharsAux fuel (n / 16) ++ [hexDigit (n % 16)]

/-- Digit list of `n` in uppercase hexadecimal, most significant first,
mirroring Rust's `{:X}` (no leading zeros, a single `0` for zero). -/
def hexChars (n : Nat) : List Char := hexCharsAux (n + 1) n

/-- Uppercase hexadecimal rendering of `n`, as in `format!("{n:X}")`. -/
def hexU (n : Nat) : String := ⟨hexChars n⟩

/-- Decimal rendering of a number, as in Rust's `{}` formatting of an
unsigned integer. -/
def numStr (n : Nat) : String := Nat.repr n

/-- One all-numeric output line `a b c d`. -/
def line4 (a b c d : Nat) : String :=
  numStr a ++ " " ++ numStr b ++ " " ++ numStr c ++ " " ++ numStr d

/-- One branch output line `a b c lbl` with a symbolic destination. -/
def line3l (a b c : Nat) (lbl : String) : String :=
  numStr a ++ " " ++ numStr b ++ " " ++ numStr c ++ " " ++ lbl

/-- The unconditional-branch line `{jeq} 0 0 {lbl}` synthesized by the
`While`/`If`/`Loop` arms, where `jeq = Cmp::Eq.to_num()`. -/
def uncondLine (lbl : String) : String :=
  numStr (Cmp.toNum Cmp.Eq) ++ " 0 0 " ++ lbl

mutual

/-- Embedding of `impl Display for Stmt`.  `σ` is the stream of nanosecond
clock readings feeding `get_stamp`; the second component is the index of
the next unconsumed reading.  Each arm mirrors the corresponding `write!`
of the Rust source; `σ n % U32` is `get_stamp()`'s `as u32` truncation. -/
def renderStmt (σ : Nat → Nat) : Stmt → Nat → String × Nat
  | .Bin op l r d, n =>
      (line4 (fixB (Bop.toNum op) l r) l.toNum r.toNum d.toNum, n)
  | .Un op v d, n =>
      (line4 (fixU (Uop.toNum op) v) v.toNum 0 d.toNum, n)
  | .Save addr val, n =>
      (line4 (fixB SAVE addr val) addr.toNum val.toNum 0, n)
  | .Load addr reg, n =>
      (line4 (LOAD + if addr.isIm then 128 else 0) addr.toNum 0 reg.toNum, n)
  | .Label l, n => ("label " ++ l, n)
  | .Br lbl cond, n =>
      (line3l (fixB (Cmp.toNum cond.cmp) cond.lhs cond.rhs)
        cond.lhs.toNum cond.rhs.toNum lbl, n)
  | .While cond block, n =>
      let stamp := σ n % U32
      let (body, n1) := renderBlock σ block (n + 1)
      ("label " ++ ("L_" ++ hexU stamp) ++ "\n" ++
        line3l (fixB (Cmp.toNum cond.cmp.inv) cond.lhs cond.rhs)
          cond.lhs.toNum cond.rhs.toNum ("E_" ++ hexU stamp) ++ "\n" ++
        body ++ "\n" ++
        uncondLine ("L_" ++ hexU stamp) ++ "\n" ++
        "label " ++ ("E_" ++ hexU stamp), n1)
  | .If cond yes no, n =>
      let stamp := σ n % U32
      let (noS, n1) := renderBlock σ no (n + 1)
      let (yesS, n2) := renderBlock σ yes n1
      (line3l (fixB (Cmp.toNum cond.cmp) cond.lhs cond.rhs)
          cond.lhs.toNum cond.rhs.toNum ("T_" ++ hexU stamp) ++ "\n" ++
        (if no.isEmpty then "" else noS ++ "\n") ++
        uncondLine ("D_" ++ hexU stamp) ++ "\n" ++
        "label " ++ ("T_" ++ hexU stamp) ++ "\n" ++
        yesS ++ "\n" ++
        "label " ++ ("D_" ++ hexU stamp), n2)
  | .Loop block, n =>
      let stamp := σ n % U32
      let (body, n1) := renderBlock σ block (n + 1)
      ("label " ++ ("L_" ++ hexU stamp) ++ "\n" ++
        body ++ "\n" ++
        uncondLine ("L_" ++ hexU stamp), n1)
  | .Hf reg, n => (line4 HF 0 0 reg.toNum, n)
  | .Call s, n => ("64 6 8 0\n" ++ numStr SAVE ++ " 5 0 0\n64 " ++ s ++ " 0 6\n", n)
  | .Args, n =>
      ("65 5 1 5\n" ++ numStr SAVE ++ " 5 1 0\n" ++
       "65 5 1 5\n" ++ numStr SAVE ++ " 5 2 0\n" ++
       "65 5 1 5\n" ++ numStr SAVE ++ " 5 3 0\n" ++
       "65 5 1 5\n" ++ numStr SAVE ++ " 5 4 0", n)
  | .Ret, n =>
      (numStr LOAD ++ " 5 0 0\n64 5 1 5\n" ++
       numStr LOAD ++ " 5 0 4\n64 5 1 5\n" ++
       numStr LOAD ++ " 5 0 3\n64 5 1 5\n" ++
       numStr LOAD ++ " 5 0 2\n64 5 1 5\n" ++
       numStr LOAD ++ " 5 0 1\n64 5 1 5\n64 0 0 6", n)

/-- Embedding of `block.iter().map(|x| format!("{x}")).collect::<Vec<_>>().join("\n")`:
the statements of a block rendered in order and joined with newlines,
threading the clock stream. -/
def renderBlock (σ : Nat → Nat) : List Stmt → Nat → String × Nat
  | [], n => ("", n)
  | [s], n => renderStmt σ s n
  | s :: ss, n =>
      let (a, n1) := renderStmt σ s n
      let (b, n2) := renderBlock σ ss n1
      (a ++ "\n" ++ b, n2)

end

/-- Join a list of lines with newlines; `joinNl (l :: ls)` for nonempty `ls`
inserts a single `\n`, matching `Vec::join("\n")`. -/
def joinNl : List String → String
  | [] => ""
  | [s] => s
  | s :: ss => s ++ "\n" ++ joinNl ss

mutual

/-- Line-level view of `renderStmt`: the same output presented as the list
of newline-separated pieces (an empty piece stands for an empty line, e.g.
the joined rendering of an empty block, or the empty tail after `Call`'s
trailing newline).  Related to `renderStmt` by `renderStmt_eq_joinNl`. -/
def stmtLines (σ : Nat → Nat) : Stmt → Nat → List String × Nat
  | .Bin op l r d, n =>
      ([line4 (fixB (Bop.toNum op) l r) l.toNum r.toNum d.toNum], n)
  | .Un op v d, n =>
      ([line4 (fixU (Uop.toNum op) v) v.toNum 0 d.toNum], n)
  | .Save addr val, n =>
      ([line4 (fixB SAVE addr val) addr.toNum val.toNum 0], n)
  | .Load addr reg, n =>
      ([line4 (LOAD + if addr.isIm then 128 else 0) addr.toNum 0 reg.toNum], n)
  | .Label l, n => (["label " ++ l], n)
  | .Br lbl cond, n =>
      ([line3l (fixB (Cmp.toNum cond.cmp) cond.lhs cond.rhs)
        cond.lhs.toNum cond.rhs.toNum lbl], n)
  | .While cond block, n =>
      let stamp := σ n % U32
      let (body, n1) := blockLines σ block (n + 1)
      (["label " ++ ("L_" ++ hexU stamp),
        line3l (fixB (Cmp.toNum cond.cmp.inv) cond.lhs cond.rhs)
          cond.lhs.toNum cond.rhs.toNum ("E_" ++ hexU stamp)] ++
        body ++
        [uncondLine ("L_" ++ hexU stamp),
         "label " ++ ("E_" ++ hexU stamp)], n1)
  | .If cond yes no, n =>
      let stamp := σ n % U32
      let (noL, n1) := blockLines σ no (n + 1)
      let (yesL, n2) := blockLines σ yes n1
      ([line3l (fixB (Cmp.toNum cond.cmp) cond.lhs cond.rhs)
          cond.lhs.toNum cond.rhs.toNum ("T_" ++ hexU stamp)] ++
        (if no.isEmpty then [] else noL) ++
        [uncondLine ("D_" ++ hexU stamp),
         "label " ++ ("T_" ++ hexU stamp)] ++
        yesL ++
        ["label " ++ ("D_" ++ hexU stamp)], n2)
  | .Loop block, n =>
      let stamp := σ n % U32
      let (body, n1) := blockLines σ block (n + 1)
      (["label " ++ ("L_" ++ hexU stamp)] ++ body ++
        [uncondLine ("L_" ++ hexU stamp)], n1)
  | .Hf reg, n => ([line4 HF 0 0 reg.toNum], n)
  | .Call s, n =>
      (["64 6 8 0", numStr SAVE ++ " 5 0 0", "64 " ++ s ++ " 0 6", ""], n)
  | .Args, n =>
      (["65 5 1 5", numStr SAVE ++ " 5 1 0",
        "65 5 1 5", numStr SAVE ++ " 5 2 0",
        "65 5 1 5", numStr SAVE ++ " 5 3 0",
        "65 5 1 5", numStr SAVE ++ " 5 4 0"], n)
  | .Ret, n =>
      ([numStr LOAD ++ " 5 0 0", "64 5 1 5",
        numStr LOAD ++ " 5 0 4", "64 5 1 5",
        numStr LOAD ++ " 5 0 3", "64 5 1 5",
        numStr LOAD ++ " 5 0 2", "64 5 1 5",
        numStr LOAD ++ " 5 0 1", "64 5 1 5", "64 0 0 6"], n)

/-- Line-level view of `renderBlock`; an empty block joins to the single
empty line. -/
def blockLines (σ : Nat → Nat) : List Stmt → Nat → List String × Nat
  | [], n => ([""], n)
  | [s], n => stmtLines σ s n
  | s :: ss, n =>
      let (a, n1) := stmtLines σ s n
      let (b, n2) := blockLines σ ss n1
      (a ++ b, n2)

end

mutual

/-- Number of `get_stamp()` calls made while rendering one statement. -/
def stampCount : Stmt → Nat
  | .While _ block => 1 + stampCountList block
  | .If _ yes no => 1 + stampCountList no + stampCountList yes
  | .Loop block => 1 + stampCountList block
  | _ => 0

/-- Number of `get_stamp()` calls made while rendering a block. -/
def stampCountList : List Stmt → Nat
  | [] => 0
  | s :: ss => stampCount s + stampCountList ss

end

mutual

/-- Generated label names minted while rendering one statement, in the
order the corresponding `get_stamp()` calls happen (`While` mints
`L_`/`E_`, `If` mints `T_`/`D_`, `Loop` mints `L_`; leaf statements mint
none). -/
def genLabels (σ : Nat → Nat) : Stmt → Nat → List String × Nat
  | .While _ block, n =>
      let stamp := σ n % U32
      let (ls, n1) := genLabelsList σ block (n + 1)
      (("L_" ++ hexU stamp) :: ("E_" ++ hexU stamp) :: ls, n1)
  | .If _ yes no, n =>
      let stamp := σ n % U32
      let (ln, n1) := genLabelsList σ no (n + 1)
      let (ly, n2) := genLabelsList σ yes n1
      (("T_" ++ hexU stamp) :: ("D_" ++ hexU stamp) :: (ln ++ ly), n2)
  | .Loop block, n =>
      let stamp := σ n % U32
      let (ls, n1) := genLabelsList σ block (n + 1)
      (("L_" ++ hexU stamp) :: ls, n1)
  | _, n => ([], n)

/-- Generated label names minted while rendering a block, in order. -/
def genLabelsList (σ : Nat → Nat) : List Stmt → Nat → List String × Nat
  | [], n => ([], n)
  | s :: ss, n =>
      let (a, n1) := genLabels σ s n
      let (b, n2) := genLabelsList σ ss n1
      (a ++ b, n2)

end

/-- Structured statements are those lowered through fresh labels; every
other constructor is a leaf and renders without consulting the clock. -/
def isStructured : Stmt → Bool
  | .While _ _ => true
  | .If _ _ _ => true
  | .Loop _ => true
  | _ => false

/-- Last character of a string, if any. -/
def lastChar (s : String) : Option Char := s.data.getLast?

/-- Does the string end with a newline character? -/
def endsNl (s : String) : Bool := lastChar s == some '\n'

/-- Which statements render to text ending in a newline: `Call` always
does; `Label` and `Br` do exactly when their label string does; nothing
else ever does. -/
def endsNlSpec : Stmt → Bool
  | .Call _ => true
  | .Label l => endsNl l
  | .Br lbl _ => endsNl lbl
  | _ => false

/-- Split a character list at every space, keeping empty runs. -/
def splitSp : List Char → List (List Char)
  | [] => [[]]
  | c :: rest =>
      if c = ' ' then [] :: splitSp rest
      else
        match splitSp rest with
        | [] => [[c]]
        | f :: fs => (c :: f) :: fs

/-- The whitespace-separated fields of one output line. -/
def fields (s : String) : List String := (splitSp s.data).map fun cs => ⟨cs⟩

/-- Decimal value of a digit list (most significant first). -/
def digitsVal (cs : List Char) : Nat :=
  cs.foldl (fun acc c => acc * 10 + (c.toNat - 48)) 0

/-- Is the string a base-10 unsigned byte value: nonempty, all digits,
value below 256? -/
def byteStr (s : String) : Bool :=
  !s.data.isEmpty && s.data.all Char.isDigit && digitsVal s.data < 256

/-- Does a (numeric) opcode field denote a branch instruction, i.e. is its
value a comparison opcode 16–21 up to the two immediate flags 128/64? -/
def branchField (s : String) : Bool :=
  byteStr s && 16 ≤ digitsVal s.data % 64 && digitsVal s.data % 64 ≤ 21

/-- The §6 output-line contract exactly as the spec states it: a line is a
`label NAME` pseudo-instruction, or has four fields `OPCODE OPERAND1
OPERAND2 DEST` with the first three base-10 unsigned byte values and
`DEST` either a byte or — for branch instructions only — a symbolic label
name. -/
def lineSpecOk (l : String) : Bool :=
  (fields l).head? == some "label" ||
  (match fields l with
   | [a, b, c, d] => byteStr a && byteStr b && byteStr c && (byteStr d || branchField a)
   | _ => false)

/-- Shape actually enjoyed by every rendered line: a label line, an empty
line (empty-block join or `Call`'s trailing newline), an all-numeric
four-field line, a branch line with a symbolic destination, or `Call`'s
final jump line, which carries the callee label in the OPERAND1 slot. -/
def lineOkAmended (l : String) : Prop :=
  (∃ r, l = "label " ++ r) ∨
  l = "" ∨
  (∃ a b c d : Nat, a < 256 ∧ b < 256 ∧ c < 256 ∧ d < 256 ∧ l = line4 a b c d) ∨
  (∃ a b c : Nat, ∃ lbl : String,
    a < 256 ∧ 16 ≤ a % 64 ∧ a % 64 ≤ 21 ∧ b < 256 ∧ c < 256 ∧
    l = line3l a b c lbl) ∨
  (∃ lbl : String, l = "64 " ++ lbl ++ " 0 6")

/-- Count of newline characters in a string; a string with `k` newlines
prints as `k + 1` lines. -/
def nlCount (s : String) : Nat := s.data.count '\n'

/-- The one-statement round-trip program of §8:
`If{cond: (Reg(R0) eq Im(0)), then: [Bin(Add, Reg(R0), Im(1), R0)], else: []}`. -/
def c3prog : Stmt :=
  Stmt.If ⟨Val.Reg Reg.R0, Val.Im 0, Cmp.Eq⟩
    [Stmt.Bin Bop.Add (Val.Reg Reg.R0) (Val.Im 1) Reg.R0] []

set_option maxRecDepth 8192

/-! ### Basic string lemmas -/

theorem lastChar_append_of_ne_nil (a b : String) (hb : b.data ≠ []) :
    lastChar (a ++ b) = lastChar b := by
  simp [lastChar, String.data_append, List.getLast?_append_of_ne_nil _ hb]

theorem lastChar_append_empty (a b : String) (hb : b.data = []) :
    lastChar (a ++ b) = lastChar a := by
  simp [lastChar, String.data_append, hb]

theorem mem_of_lastChar (s : String) (c : Char) (h : lastChar s = some c) :
    c ∈ s.data := by
  obtain ⟨hne, rfl⟩ := List.mem_getLast?_eq_getLast (by simpa [lastChar] using h)
  exact List.getLast_mem hne

theorem nlCount_append (a b : String) :
    nlCount (a ++ b) = nlCount a + nlCount b := by
  simp [nlCount, String.data_append, List.count_append]

theorem nlCount_eq_zero (s : String) (h : '\n' ∉ s.data) : nlCount s = 0 :=
  List.count_eq_zero.2 h

/-! ### Digit facts for decimal renderings of byte values -/

theorem numStr_digits_fin : ∀ k : Fin 256, (numStr k.val).data.all Char.isDigit = true := by
  decide

theorem numStr_ne_nil_fin : ∀ k : Fin 256, ((numStr k.val).data.isEmpty) = false := by
  decide

theorem digit_ne_nl {c : Char} (h : c.isDigit = true) : c ≠ '\n' := by
  intro hc; subst hc; exact absurd h (by decide)

theorem digit_ne_sp {c : Char} (h : c.isDigit = true) : c ≠ ' ' := by
  intro hc; subst hc; exact absurd h (by decide)

theorem numStr_digits {k : Nat} (hk : k < 256) :
    ∀ c ∈ (numStr k).data, c.isDigit = true := by
  have := numStr_digits_fin ⟨k, hk⟩
  simpa [List.all_eq_true] using this

theorem numStr_ne_nil {k : Nat} (hk : k < 256) : (numStr k).data ≠ [] := by
  have := numStr_ne_nil_fin ⟨k, hk⟩
  simpa [List.isEmpty_iff] using this

theorem numStr_no_nl {k : Nat} (hk : k < 256) : '\n' ∉ (numStr k).data := by
  intro hmem
  exact absurd rfl (digit_ne_nl (numStr_digits hk _ hmem))

theorem nlCount_numStr {k : Nat} (hk : k < 256) : nlCount (numStr k) = 0 :=
  nlCount_eq_zero _ (numStr_no_nl hk)

theorem lastChar_numStr_ne_nl {k : Nat} (hk : k < 256) :
    lastChar (numStr k) ≠ some '\n' := by
  intro h
  exact absurd rfl (digit_ne_nl (numStr_digits hk _ (mem_of_lastChar _ _ h)))

/-! ### Hexadecimal digit facts -/

theorem hexDigit_ne_nl (m : Nat) : hexDigit m ≠ '\n' := by
  match m with
  | 0 | 1 | 2 | 3 | 4 | 5 | 6 | 7 | 8 | 9 | 10 | 11 | 12 | 13 | 14 | 15 => decide
  | n + 16 => show ('*' : Char) ≠ _ ; decide

theorem hexCharsAux_mem :
    ∀ fuel n c, c ∈ hexCharsAux fuel n → ∃ m, c = hexDigit m := by
  intro fuel
  induction fuel with
  | zero => intro n c h; simp [hexCharsAux] at h
  | succ fuel ih =>
      intro n c h
      rw [hexCharsAux] at h
      split at h
      · simp at h; exact ⟨n, h⟩
      · rcases List.mem_append.1 h with h1 | h2
        · exact ih _ _ h1
        · simp at h2; exact ⟨n % 16, h2⟩

theorem hexCharsAux_ne_nil : ∀ fuel n, fuel ≠ 0 → hexCharsAux fuel n ≠ [] := by
  intro fuel n h
  cases fuel with
  | zero => exact absurd rfl h
  | succ fuel =>
      rw [hexCharsAux]
      split
      · simp
      · simp

theorem hexU_ne_nil (n : Nat) : (hexU n).data ≠ [] :=
  hexCharsAux_ne_nil (n + 1) n (by omega)

theorem hexU_no_nl (n : Nat) : '\n' ∉ (hexU n).data := by
  intro h
  obtain ⟨m, hm⟩ := hexCharsAux_mem (n + 1) n _ h
  exact absurd hm.symm (hexDigit_ne_nl m)

theorem nlCount_hexU (n : Nat) : nlCount (hexU n) = 0 :=
  nlCount_eq_zero _ (hexU_no_nl n)

theorem lastChar_hexU_ne_nl (n : Nat) : lastChar (hexU n) ≠ some '\n' := by
  intro h
  obtain ⟨m, hm⟩ := hexCharsAux_mem (n + 1) n _ (mem_of_lastChar _ _ h)
  exact absurd hm.symm (hexDigit_ne_nl m)

/-! ### Bounds on opcodes and operand fields -/

theorem bopToNum_lt (op : Bop) : op.toNum < 64 := by cases op <;> decide

theorem uopToNum_lt (op : Uop) : op.toNum < 64 := by cases op; decide

theorem cmpToNum_range (c : Cmp) : 16 ≤ c.toNum ∧ c.toNum ≤ 21 := by
  cases c <;> decide

theorem regToNum_lt (r : Reg) : r.toNum < 256 := by cases r <;> decide

theorem valToNum_lt (v : Val) : v.toNum < 256 := by
  cases v with
  | Reg r => exact regToNum_lt r
  | Im x => exact x.isLt

theorem fixB_lt {b : Nat} (hb : b < 64) (l r : Val) : fixB b l r < 256 := by
  unfold fixB; split_ifs <;> omega

theorem fixU_lt {b : Nat} (hb : b < 64) (x : Val) : fixU b x < 256 := by
  unfold fixU; split_ifs <;> omega

theorem fixB_mod64 {b : Nat} (hb : b < 64) (l r : Val) : fixB b l r % 64 = b := by
  unfold fixB; split_ifs <;> omega

/-! ### Newline counts of line builders -/

theorem nlCount_line4 {a b c d : Nat} (ha : a < 256) (hb : b < 256)
    (hc : c < 256) (hd : d < 256) : nlCount (line4 a b c d) = 0 := by
  unfold line4
  simp [nlCount_append, nlCount_numStr, ha, hb, hc, hd]
  decide

theorem nlCount_line3l {a b c : Nat} (lbl : String) (ha : a < 256)
    (hb : b < 256) (hc : c < 256) :
    nlCount (line3l a b c lbl) = nlCount lbl := by
  unfold line3l
  simp [nlCount_append, nlCount_numStr, ha, hb, hc]
  decide

theorem nlCount_uncondLine (lbl : String) :
    nlCount (uncondLine lbl) = nlCount lbl := by
  unfold uncondLine
  simp [nlCount_append]
  decide

theorem nlCount_genLabel (pre : String) (hpre : '\n' ∉ pre.data) (st : Nat) :
    nlCount (pre ++ hexU st) = 0 := by
  simp [nlCount_append, nlCount_hexU, nlCount_eq_zero pre hpre]

/-! ### Mutual induction principle for the nested `Stmt` type -/

theorem stmtRecPair {P : Stmt → Prop} {Q : List Stmt → Prop}
    (hBin : ∀ op l r d, P (Stmt.Bin op l r d))
    (hUn : ∀ op v d, P (Stmt.Un op v d))
    (hHf : ∀ d, P (Stmt.Hf d))
    (hCall : ∀ s, P (Stmt.Call s))
    (hArgs : P Stmt.Args)
    (hRet : P Stmt.Ret)
    (hSave : ∀ a v, P (Stmt.Save a v))
    (hLoad : ∀ a r, P (Stmt.Load a r))
    (hLabel : ∀ s, P (Stmt.Label s))
    (hBr : ∀ l c, P (Stmt.Br l c))
    (hWhile : ∀ c b, Q b → P (Stmt.While c b))
    (hIf : ∀ c y no, Q y → Q no → P (Stmt.If c y no))
    (hLoop : ∀ b, Q b → P (Stmt.Loop b))
    (hnil : Q [])
    (hcons : ∀ s l, P s → Q l → Q (s :: l)) :
    (∀ s, P s) ∧ (∀ l, Q l) := by
  have hs : ∀ s, P s := fun s =>
    Stmt.rec hBin hUn hHf hCall hArgs hRet hSave hLoad hLabel hBr hWhile hIf hLoop hnil hcons s
  refine ⟨hs, ?_⟩
  intro l
  induction l with
  | nil => exact hnil
  | cons a t ih => exact hcons a t (hs a) ih

/-! ### Joining lines -/

theorem joinNl_cons (a : String) (l : List String) (h : l ≠ []) :
    joinNl (a :: l) = a ++ "\n" ++ joinNl l := by
  cases l with
  | nil => exact absurd rfl h
  | cons b t => rfl

theorem joinNl_append (l1 l2 : List String) (h1 : l1 ≠ []) (h2 : l2 ≠ []) :
    joinNl (l1 ++ l2) = joinNl l1 ++ "\n" ++ joinNl l2 := by
  induction l1 with
  | nil => exact absurd rfl h1
  | cons a t ih =>
      cases t with
      | nil => simpa using joinNl_cons a l2 h2
      | cons b t' =>
          rw [List.cons_append, joinNl_cons a _ (by simp),
            joinNl_cons a _ (by simp), ih (by simp)]
          simp [String.append_assoc]

theorem stmtLines_ne_nil (σ : Nat → Nat) (s : Stmt) (n : Nat) :
    (stmtLines σ s n).1 ≠ [] := by
  cases s <;> simp [stmtLines]

theorem blockLines_ne_nil (σ : Nat → Nat) (l : List Stmt) (n : Nat) :
    (blockLines σ l n).1 ≠ [] := by
  match l with
  | [] => simp [blockLines]
  | [s] =>
      show (stmtLines σ s n).1 ≠ []
      exact stmtLines_ne_nil σ s n
  | s :: s' :: ss =>
      have := stmtLines_ne_nil σ s n
      simp [blockLines]
      intro h
      exact absurd h this

/-! ### Stamp counters -/

theorem render_counter :
    (∀ s : Stmt, ∀ σ n, (renderStmt σ s n).2 = n + stampCount s) ∧
    (∀ l : List Stmt, ∀ σ n, (renderBlock σ l n).2 = n + stampCountList l) := by
  refine stmtRecPair ?_ ?_ ?_ ?_ ?_ ?_ ?_ ?_ ?_ ?_ ?_ ?_ ?_ ?_ ?_
  · intro op l r d σ n; rfl
  · intro op v d σ n; rfl
  · intro d σ n; rfl
  · intro s σ n; rfl
  · intro σ n; rfl
  · intro σ n; rfl
  · intro a v σ n; rfl
  · intro a r σ n; rfl
  · intro s σ n; rfl
  · intro l c σ n; rfl
  · intro c b ihb σ n
    simp only [renderStmt, stampCount, ihb σ (n + 1)]
    omega
  · intro c yes no ihy ihn σ n
    simp only [renderStmt, stampCount, ihy σ _, ihn σ (n + 1)]
    omega
  · intro b ihb σ n
    simp only [renderStmt, stampCount, ihb σ (n + 1)]
    omega
  · intro σ n; rfl
  · intro s l ihs ihl σ n
    cases l with
    | nil =>
        show (renderStmt σ s n).2 = _
        simp only [ihs σ n, stampCountList]
        omega
    | cons b t =>
        simp only [renderBlock, stampCountList, ihs σ n, ihl σ _]
        omega

theorem lines_counter :
    (∀ s : Stmt, ∀ σ n, (stmtLines σ s n).2 = n + stampCount s) ∧
    (∀ l : List Stmt, ∀ σ n, (blockLines σ l n).2 = n + stampCountList l) := by
  refine stmtRecPair ?_ ?_ ?_ ?_ ?_ ?_ ?_ ?_ ?_ ?_ ?_ ?_ ?_ ?_ ?_
  · intro op l r d σ n; rfl
  · intro op v d σ n; rfl
  · intro d σ n; rfl
  · intro s σ n; rfl
  · intro σ n; rfl
  · intro σ n; rfl
  · intro a v σ n; rfl
  · intro a r σ n; rfl
  · intro s σ n; rfl
  · intro l c σ n; rfl
  · intro c b ihb σ n
    simp only [stmtLines, stampCount, ihb σ (n + 1)]
    omega
  · intro c yes no ihy ihn σ n
    simp only [stmtLines, stampCount, ihy σ _, ihn σ (n + 1)]
    omega
  · intro b ihb σ n
    simp only [stmtLines, stampCount, ihb σ (n + 1)]
    omega
  · intro σ n; rfl
  · intro s l ihs ihl σ n
    cases l with
    | nil =>
        show (stmtLines σ s n).2 = _
        simp only [ihs σ n, stampCountList]
        omega
    | cons b t =>
        simp only [blockLines, stampCountList, ihs σ n, ihl σ _]
        omega

/-! ### Adequacy of the line-level view -/

theorem render_eq_join :
    (∀ s : Stmt, ∀ σ n,
      (renderStmt σ s n).1 = joinNl (stmtLines σ s n).1) ∧
    (∀ l : List Stmt, ∀ σ n,
      (renderBlock σ l n).1 = joinNl (blockLines σ l n).1) := by
  refine stmtRecPair ?_ ?_ ?_ ?_ ?_ ?_ ?_ ?_ ?_ ?_ ?_ ?_ ?_ ?_ ?_
  · intro op l r d σ n; rfl
  · intro op v d σ n; rfl
  · intro d σ n; rfl
  · intro s σ n
    show _ = joinNl ["64 6 8 0", numStr SAVE ++ " 5 0 0", "64 " ++ s ++ " 0 6", ""]
    apply String.ext
    simp [renderStmt, joinNl, String.data_append, List.append_assoc]
  · intro σ n; rfl
  · intro σ n; rfl
  · intro a v σ n; rfl
  · intro a r σ n; rfl
  · intro s σ n; rfl
  · intro l c σ n; rfl
  · -- While
    intro c b ihb σ n
    have hne := blockLines_ne_nil σ b (n + 1)
    simp only [renderStmt, stmtLines, ihb σ (n + 1), List.cons_append,
      List.nil_append]
    rw [joinNl_cons _ _ (by simp), joinNl_cons _ _ (by simp),
      joinNl_append _ _ hne (by simp), joinNl_cons _ _ (by simp)]
    apply String.ext
    simp [joinNl, String.data_append, List.append_assoc]
  · -- If
    intro c yes no ihy ihn σ n
    have h2 := (render_counter.2) no σ (n + 1)
    have h3 := (lines_counter.2) no σ (n + 1)
    have hyne := blockLines_ne_nil σ yes ((blockLines σ no (n + 1)).2)
    simp only [renderStmt, stmtLines, ihn σ (n + 1), List.cons_append,
      List.nil_append, List.append_assoc, h2, h3,
      ihy σ (n + 1 + stampCountList no)]
    by_cases hno : no.isEmpty
    · rw [if_pos hno, if_pos hno]
      simp only [List.nil_append]
      rw [joinNl_cons _ _ (by simp), joinNl_cons _ _ (by simp),
        joinNl_cons _ _ (by simp),
        joinNl_append _ _ (blockLines_ne_nil σ yes _) (by simp)]
      apply String.ext
      simp [joinNl, String.data_append, List.append_assoc]
    · have hnne := blockLines_ne_nil σ no (n + 1)
      rw [if_neg hno, if_neg hno]
      rw [joinNl_cons _ _ (by simp), joinNl_append _ _ hnne (by simp),
        joinNl_cons _ _ (by simp), joinNl_cons _ _ (by simp),
        joinNl_append _ _ (blockLines_ne_nil σ yes _) (by simp)]
      apply String.ext
      simp [joinNl, String.data_append, List.append_assoc]
  · -- Loop
    intro b ihb σ n
    have hne := blockLines_ne_nil σ b (n + 1)
    simp only [renderStmt, stmtLines, ihb σ (n + 1), List.cons_append,
      List.nil_append]
    rw [joinNl_cons _ _ (by simp), joinNl_append _ _ hne (by simp)]
    apply String.ext
    simp [joinNl, String.data_append, List.append_assoc]
  · intro σ n; rfl
  · -- cons
    intro s l ihs ihl σ n
    cases l with
    | nil =>
        show (renderStmt σ s n).1 = _
        exact ihs σ n
    | cons b t =>
        have hsne := stmtLines_ne_nil σ s n
        have hlne := blockLines_ne_nil σ (b :: t) ((stmtLines σ s n).2)
        have hc1 := (render_counter.1) s σ n
        have hc2 := (lines_counter.1) s σ n
        simp only [renderBlock, blockLines, ihs σ n, hc1, hc2,
          ihl σ (n + stampCount s)]
        rw [joinNl_append _ _ (stmtLines_ne_nil σ s n)
          (blockLines_ne_nil σ (b :: t) (n + stampCount s))]

/-! ### The rendering depends on the clock only through the truncated
stamp values -/

theorem render_congr :
    (∀ s : Stmt, ∀ (σ₁ σ₂ : Nat → Nat) (n₁ n₂ : Nat),
      (∀ k, hexU (σ₁ (n₁ + k) % U32) = hexU (σ₂ (n₂ + k) % U32)) →
      (renderStmt σ₁ s n₁).1 = (renderStmt σ₂ s n₂).1) ∧
    (∀ l : List Stmt, ∀ (σ₁ σ₂ : Nat → Nat) (n₁ n₂ : Nat),
      (∀ k, hexU (σ₁ (n₁ + k) % U32) = hexU (σ₂ (n₂ + k) % U32)) →
      (renderBlock σ₁ l n₁).1 = (renderBlock σ₂ l n₂).1) := by
  refine stmtRecPair ?_ ?_ ?_ ?_ ?_ ?_ ?_ ?_ ?_ ?_ ?_ ?_ ?_ ?_ ?_
  · intro op l r d σ₁ σ₂ n₁ n₂ h; rfl
  · intro op v d σ₁ σ₂ n₁ n₂ h; rfl
  · intro d σ₁ σ₂ n₁ n₂ h; rfl
  · intro s σ₁ σ₂ n₁ n₂ h; rfl
  · intro σ₁ σ₂ n₁ n₂ h; rfl
  · intro σ₁ σ₂ n₁ n₂ h; rfl
  · intro a v σ₁ σ₂ n₁ n₂ h; rfl
  · intro a r σ₁ σ₂ n₁ n₂ h; rfl
  · intro s σ₁ σ₂ n₁ n₂ h; rfl
  · intro l c σ₁ σ₂ n₁ n₂ h; rfl
  · -- While
    intro c b ihb σ₁ σ₂ n₁ n₂ h
    have h0 : hexU (σ₁ n₁ % U32) = hexU (σ₂ n₂ % U32) := by simpa using h 0
    have hb : (renderBlock σ₁ b (n₁ + 1)).1 = (renderBlock σ₂ b (n₂ + 1)).1 :=
      ihb σ₁ σ₂ (n₁ + 1) (n₂ + 1)
        (fun k => by rw [Nat.add_assoc, Nat.add_assoc]; exact h (1 + k))
    simp only [renderStmt, h0, hb]
  · -- If
    intro c yes no ihy ihn σ₁ σ₂ n₁ n₂ h
    have h0 : hexU (σ₁ n₁ % U32) = hexU (σ₂ n₂ % U32) := by simpa using h 0
    have hshift : ∀ k, hexU (σ₁ (n₁ + 1 + k) % U32) = hexU (σ₂ (n₂ + 1 + k) % U32) :=
      fun k => by rw [Nat.add_assoc, Nat.add_assoc]; exact h (1 + k)
    have hno : (renderBlock σ₁ no (n₁ + 1)).1 = (renderBlock σ₂ no (n₂ + 1)).1 :=
      ihn σ₁ σ₂ _ _ hshift
    have e₁ := render_counter.2 no σ₁ (n₁ + 1)
    have e₂ := render_counter.2 no σ₂ (n₂ + 1)
    have hyes : (renderBlock σ₁ yes ((renderBlock σ₁ no (n₁ + 1)).2)).1
        = (renderBlock σ₂ yes ((renderBlock σ₂ no (n₂ + 1)).2)).1 := by
      rw [e₁, e₂]
      refine ihy σ₁ σ₂ _ _ (fun k => ?_)
      have a1 : n₁ + 1 + stampCountList no + k = n₁ + (1 + stampCountList no + k) := by
        omega
      have a2 : n₂ + 1 + stampCountList no + k = n₂ + (1 + stampCountList no + k) := by
        omega
      rw [a1, a2]
      exact h _
    simp only [renderStmt, h0, hno, hyes]
  · -- Loop
    intro b ihb σ₁ σ₂ n₁ n₂ h
    have h0 : hexU (σ₁ n₁ % U32) = hexU (σ₂ n₂ % U32) := by simpa using h 0
    have hb : (renderBlock σ₁ b (n₁ + 1)).1 = (renderBlock σ₂ b (n₂ + 1)).1 :=
      ihb σ₁ σ₂ (n₁ + 1) (n₂ + 1)
        (fun k => by rw [Nat.add_assoc, Nat.add_assoc]; exact h (1 + k))
    simp only [renderStmt, h0, hb]
  · intro σ₁ σ₂ n₁ n₂ h; rfl
  · -- cons
    intro s l ihs ihl σ₁ σ₂ n₁ n₂ h
    cases l with
    | nil =>
        show (renderStmt σ₁ s n₁).1 = (renderStmt σ₂ s n₂).1
        exact ihs σ₁ σ₂ n₁ n₂ h
    | cons b t =>
        have hs := ihs σ₁ σ₂ n₁ n₂ h
        have e₁ := render_counter.1 s σ₁ n₁
        have e₂ := render_counter.1 s σ₂ n₂
        have ht : (renderBlock σ₁ (b :: t) ((renderStmt σ₁ s n₁).2)).1
            = (renderBlock σ₂ (b :: t) ((renderStmt σ₂ s n₂).2)).1 := by
          rw [e₁, e₂]
          refine ihl σ₁ σ₂ _ _ (fun k => ?_)
          have a1 : n₁ + stampCount s + k = n₁ + (stampCount s + k) := by omega
          have a2 : n₂ + stampCount s + k = n₂ + (stampCount s + k) := by omega
          rw [a1, a2]
          exact h _
        simp only [renderBlock, hs, ht]

/-! ### Last-character analysis -/

theorem endsNl_append_str (a lbl : String) (ha : lastChar a ≠ some '\n') :
    endsNl (a ++ lbl) = endsNl lbl := by
  by_cases h : lbl.data = []
  · rw [endsNl, lastChar_append_empty _ _ h, endsNl]
    have h2 : lastChar lbl = none := by
      simp [lastChar, h]
    rw [h2]
    simp [ha]
  · rw [endsNl, lastChar_append_of_ne_nil _ _ h, endsNl]

theorem lastChar_sp_tail (a : String) (t : String) (ht : t.data ≠ [])
    (hl : lastChar t ≠ some '\n') : lastChar (a ++ t) ≠ some '\n' := by
  rw [lastChar_append_of_ne_nil _ _ ht]
  exact hl

theorem cmpToNum_lt (c : Cmp) : c.toNum < 64 := by cases c <;> decide

theorem endsNl_of_ne (s : String) (h : lastChar s ≠ some '\n') :
    endsNl s = false := beq_eq_false_iff_ne.mpr h

/-! ### Line-shape helpers -/

theorem lineOk_label (r : String) : lineOkAmended ("label " ++ r) :=
  Or.inl ⟨r, rfl⟩

theorem lineOk_empty : lineOkAmended "" := Or.inr (Or.inl rfl)

theorem lineOk_num {a b c d : Nat} (ha : a < 256) (hb : b < 256)
    (hc : c < 256) (hd : d < 256) : lineOkAmended (line4 a b c d) :=
  Or.inr (Or.inr (Or.inl ⟨a, b, c, d, ha, hb, hc, hd, rfl⟩))

theorem lineOk_branch {a b c : Nat} (lbl : String) (ha : a < 256)
    (h16 : 16 ≤ a % 64) (h21 : a % 64 ≤ 21) (hb : b < 256) (hc : c < 256) :
    lineOkAmended (line3l a b c lbl) :=
  Or.inr (Or.inr (Or.inr (Or.inl ⟨a, b, c, lbl, ha, h16, h21, hb, hc, rfl⟩)))

theorem lineOk_calljump (lbl : String) : lineOkAmended ("64 " ++ lbl ++ " 0 6") :=
  Or.inr (Or.inr (Or.inr (Or.inr ⟨lbl, rfl⟩)))

theorem lineOk_brCond (c : Cmp) (l r : Val) {x y : Nat} (hx : x < 256)
    (hy : y < 256) (lbl : String) :
    lineOkAmended (line3l (fixB (Cmp.toNum c) l r) x y lbl) := by
  refine lineOk_branch lbl (fixB_lt (cmpToNum_lt c) l r) ?_ ?_ hx hy
  · rw [fixB_mod64 (cmpToNum_lt c)]
    exact (cmpToNum_range c).1
  · rw [fixB_mod64 (cmpToNum_lt c)]
    exact (cmpToNum_range c).2

theorem lineOk_uncond (lbl : String) : lineOkAmended (uncondLine lbl) := by
  show lineOkAmended (line3l 16 0 0 lbl)
  exact lineOk_branch lbl (by decide) (by decide) (by decide) (by decide) (by decide)

theorem lines_shape :
    (∀ s : Stmt, ∀ (σ : Nat → Nat) (n : Nat),
      ∀ l ∈ (stmtLines σ s n).1, lineOkAmended l) ∧
    (∀ bs : List Stmt, ∀ (σ : Nat → Nat) (n : Nat),
      ∀ l ∈ (blockLines σ bs n).1, lineOkAmended l) := by
  refine stmtRecPair ?_ ?_ ?_ ?_ ?_ ?_ ?_ ?_ ?_ ?_ ?_ ?_ ?_ ?_ ?_
  · intro op a b d σ n l hl
    simp only [stmtLines, List.mem_singleton] at hl
    subst hl
    exact lineOk_num (fixB_lt (bopToNum_lt op) a b) (valToNum_lt a)
      (valToNum_lt b) (regToNum_lt d)
  · intro op v d σ n l hl
    simp only [stmtLines, List.mem_singleton] at hl
    subst hl
    exact lineOk_num (fixU_lt (uopToNum_lt op) v) (valToNum_lt v)
      (by decide) (regToNum_lt d)
  · intro d σ n l hl
    simp only [stmtLines, List.mem_singleton] at hl
    subst hl
    exact lineOk_num (by decide) (by decide) (by decide) (regToNum_lt d)
  · intro s σ n l hl
    simp only [stmtLines, List.mem_cons, List.mem_singleton, List.not_mem_nil, or_false] at hl
    rcases hl with rfl | rfl | rfl | rfl
    · rw [show ("64 6 8 0" : String) = line4 64 6 8 0 from by decide]
      exact lineOk_num (by decide) (by decide) (by decide) (by decide)
    · rw [show (numStr SAVE ++ " 5 0 0" : String) = line4 7 5 0 0 from by decide]
      exact lineOk_num (by decide) (by decide) (by decide) (by decide)
    · exact lineOk_calljump s
    · exact lineOk_empty
  · intro σ n l hl
    simp only [stmtLines, List.mem_cons, List.mem_singleton, List.not_mem_nil, or_false] at hl
    have h65 : ("65 5 1 5" : String) = line4 65 5 1 5 := by decide
    have h1 : (numStr SAVE ++ " 5 1 0" : String) = line4 7 5 1 0 := by decide
    have h2 : (numStr SAVE ++ " 5 2 0" : String) = line4 7 5 2 0 := by decide
    have h3 : (numStr SAVE ++ " 5 3 0" : String) = line4 7 5 3 0 := by decide
    have h4 : (numStr SAVE ++ " 5 4 0" : String) = line4 7 5 4 0 := by decide
    rcases hl with rfl | rfl | rfl | rfl | rfl | rfl | rfl | rfl <;>
      first
        | (rw [h65]; exact lineOk_num (by decide) (by decide) (by decide) (by decide))
        | (rw [h1]; exact lineOk_num (by decide) (by decide) (by decide) (by decide))
        | (rw [h2]; exact lineOk_num (by decide) (by decide) (by decide) (by decide))
        | (rw [h3]; exact lineOk_num (by decide) (by decide) (by decide) (by decide))
        | (rw [h4]; exact lineOk_num (by decide) (by decide) (by decide) (by decide))
  · intro σ n l hl
    simp only [stmtLines, List.mem_cons, List.mem_singleton, List.not_mem_nil, or_false] at hl
    have hld : (numStr LOAD ++ " 5 0 0" : String) = line4 6 5 0 0 := by decide
    have hl4 : (numStr LOAD ++ " 5 0 4" : String) = line4 6 5 0 4 := by decide
    have hl3 : (numStr LOAD ++ " 5 0 3" : String) = line4 6 5 0 3 := by decide
    have hl2 : (numStr LOAD ++ " 5 0 2" : String) = line4 6 5 0 2 := by decide
    have hl1 : (numStr LOAD ++ " 5 0 1" : String) = line4 6 5 0 1 := by decide
    have h64 : ("64 5 1 5" : String) = line4 64 5 1 5 := by decide
    have hj : ("64 0 0 6" : String) = line4 64 0 0 6 := by decide
    rcases hl with rfl | rfl | rfl | rfl | rfl | rfl | rfl | rfl | rfl | rfl | rfl <;>
      first
        | (rw [hld]; exact lineOk_num (by decide) (by decide) (by decide) (by decide))
        | (rw [hl4]; exact lineOk_num (by decide) (by decide) (by decide) (by decide))
        | (rw [hl3]; exact lineOk_num (by decide) (by decide) (by decide) (by decide))
        | (rw [hl2]; exact lineOk_num (by decide) (by decide) (by decide) (by decide))
        | (rw [hl1]; exact lineOk_num (by decide) (by decide) (by decide) (by decide))
        | (rw [h64]; exact lineOk_num (by decide) (by decide) (by decide) (by decide))
        | (rw [hj]; exact lineOk_num (by decide) (by decide) (by decide) (by decide))
  · intro a v σ n l hl
    simp only [stmtLines, List.mem_singleton] at hl
    subst hl
    exact lineOk_num (fixB_lt (by decide) a v) (valToNum_lt a)
      (valToNum_lt v) (by decide)
  · intro a r σ n l hl
    simp only [stmtLines, List.mem_singleton] at hl
    subst hl
    refine lineOk_num ?_ (valToNum_lt a) (by decide) (regToNum_lt r)
    split <;> decide
  · intro s σ n l hl
    simp only [stmtLines, List.mem_singleton] at hl
    subst hl
    exact lineOk_label s
  · intro lbl c σ n l hl
    simp only [stmtLines, List.mem_singleton] at hl
    subst hl
    exact lineOk_brCond c.cmp c.lhs c.rhs (valToNum_lt c.lhs) (valToNum_lt c.rhs) lbl
  · -- While
    intro c b ihb σ n l hl
    simp only [stmtLines, List.cons_append, List.nil_append, List.mem_cons,
      List.mem_append, List.mem_singleton, List.not_mem_nil, or_false] at hl
    rcases hl with rfl | rfl | hmem | rfl | rfl
    · exact lineOk_label _
    · exact lineOk_brCond c.cmp.inv c.lhs c.rhs (valToNum_lt c.lhs)
        (valToNum_lt c.rhs) _
    · exact ihb σ (n + 1) l hmem
    · exact lineOk_uncond _
    · exact lineOk_label _
  · -- If
    intro c yes no ihy ihn σ n l hl
    by_cases hno : no.isEmpty <;>
      simp only [stmtLines, hno, if_true, if_false, Bool.false_eq_true,
        List.cons_append, List.nil_append, List.mem_cons, List.mem_append,
        List.mem_singleton, List.not_mem_nil, or_false, or_assoc] at hl
    · rcases hl with rfl | rfl | rfl | hmem | rfl
      · exact lineOk_brCond c.cmp c.lhs c.rhs (valToNum_lt c.lhs)
          (valToNum_lt c.rhs) _
      · exact lineOk_uncond _
      · exact lineOk_label _
      · exact ihy σ _ l hmem
      · exact lineOk_label _
    · rcases hl with rfl | hmem | rfl | rfl | hmem | rfl
      · exact lineOk_brCond c.cmp c.lhs c.rhs (valToNum_lt c.lhs)
          (valToNum_lt c.rhs) _
      · exact ihn σ (n + 1) l hmem
      · exact lineOk_uncond _
      · exact lineOk_label _
      · exact ihy σ _ l hmem
      · exact lineOk_label _
  · -- Loop
    intro b ihb σ n l hl
    simp only [stmtLines, List.cons_append, List.nil_append, List.mem_cons,
      List.mem_append, List.mem_singleton, List.not_mem_nil, or_false] at hl
    rcases hl with rfl | hmem | rfl
    · exact lineOk_label _
    · exact ihb σ (n + 1) l hmem
    · exact lineOk_uncond _
  · intro σ n l hl
    simp only [blockLines, List.mem_singleton] at hl
    subst hl
    exact lineOk_empty
  · -- cons
    intro s bs ihs ihbs σ n l hl
    cases bs with
    | nil => exact ihs σ n l hl
    | cons b t =>
        simp only [blockLines, List.mem_append] at hl
        rcases hl with hmem | hmem
        · exact ihs σ n l hmem
        · exact ihbs σ _ l hmem

theorem nlCount_label_lit : nlCount "label " = 0 := by decide

theorem nlCount_nl_lit : nlCount "\n" = 1 := by decide

/-! ## Claim theorems -/

/-- C5.  For every `Bin` statement the rendered opcode byte is the
operator's base opcode plus 128 when the left operand is an immediate plus
64 when the right operand is an immediate, and for every `Un` statement it
is the base opcode plus 128 when the operand is an immediate; the rest of
the line is the two operand numbers and the destination register. -/
theorem c5_opcode_packing :
    (∀ (op : Bop) (l r : Val) (d : Reg) (σ : Nat → Nat) (n : Nat),
      (renderStmt σ (Stmt.Bin op l r d) n).1 =
        line4 (Bop.toNum op + (if l.isIm then 128 else 0) + (if r.isIm then 64 else 0))
          l.toNum r.toNum d.toNum) ∧
    (∀ (op : Uop) (v : Val) (d : Reg) (σ : Nat → Nat) (n : Nat),
      (renderStmt σ (Stmt.Un op v d) n).1 =
        line4 (Uop.toNum op + (if v.isIm then 128 else 0)) v.toNum 0 d.toNum) :=
  ⟨fun _ _ _ _ _ _ => rfl, fun _ _ _ _ _ => rfl⟩

/-- C6.  `While{cond, block}` renders as exactly 4 fixed lines plus the
lowered body, in order: entry label `L`; a guard branch to the exit label
`E` that is precisely the rendering of `Br{label: E, cond}` with the
comparison replaced by its logical inverse (and the operands unchanged);
the body; the synthesized unconditional back-branch to `L`; label `E`.
The newline-count equation states the "exactly 4 fixed lines plus the
body" part, and the trailing conjuncts pin down the inverse map
(eq↔neq, lt↔geq, leq↔gt). -/
theorem c6_while_layout (cond : Cond) (block : List Stmt) (σ : Nat → Nat) (n : Nat) :
    ((renderStmt σ (Stmt.While cond block) n).1 =
      "label " ++ ("L_" ++ hexU (σ n % U32)) ++ "\n" ++
      (renderStmt σ (Stmt.Br ("E_" ++ hexU (σ n % U32))
        ⟨cond.lhs, cond.rhs, cond.cmp.inv⟩) n).1 ++ "\n" ++
      (renderBlock σ block (n + 1)).1 ++ "\n" ++
      uncondLine ("L_" ++ hexU (σ n % U32)) ++ "\n" ++
      "label " ++ ("E_" ++ hexU (σ n % U32))) ∧
    nlCount (renderStmt σ (Stmt.While cond block) n).1 =
      4 + nlCount (renderBlock σ block (n + 1)).1 ∧
    Cmp.inv .Eq = .Neq ∧ Cmp.inv .Neq = .Eq ∧ Cmp.inv .Lt = .Geq ∧
    Cmp.inv .Geq = .Lt ∧ Cmp.inv .Leq = .Gt ∧ Cmp.inv .Gt = .Leq := by
  refine ⟨rfl, ?_, rfl, rfl, rfl, rfl, rfl, rfl⟩
  have hfix := fixB_lt (cmpToNum_lt cond.cmp.inv) cond.lhs cond.rhs
  have hL : nlCount ("L_" ++ hexU (σ n % U32)) = 0 :=
    nlCount_genLabel _ (by decide) _
  have hE : nlCount ("E_" ++ hexU (σ n % U32)) = 0 :=
    nlCount_genLabel _ (by decide) _
  have hguard : nlCount (line3l (fixB (Cmp.toNum cond.cmp.inv) cond.lhs cond.rhs)
      cond.lhs.toNum cond.rhs.toNum ("E_" ++ hexU (σ n % U32))) = 0 := by
    rw [nlCount_line3l _ hfix (valToNum_lt _) (valToNum_lt _), hE]
  simp only [renderStmt, nlCount_append, hguard, nlCount_uncondLine,
    hL, hE, nlCount_label_lit, nlCount_nl_lit]
  omega

/-- C7.  `If{cond, yes, no}` renders, in order: a branch on `cond`
itself (not inverted) to a fresh true-label `T` — precisely the rendering
of `Br{label: T, cond}` —; the lowered else block followed by a newline,
both omitted exactly when `no` is empty; the synthesized unconditional
branch to a fresh done-label `D`; `label T`; the lowered then block; and
`label D`. -/
theorem c7_if_layout (cond : Cond) (yes no : List Stmt) (σ : Nat → Nat) (n : Nat) :
    ((renderStmt σ (Stmt.If cond yes no) n).1 =
      (renderStmt σ (Stmt.Br ("T_" ++ hexU (σ n % U32)) cond) n).1 ++ "\n" ++
      (if no.isEmpty then "" else (renderBlock σ no (n + 1)).1 ++ "\n") ++
      uncondLine ("D_" ++ hexU (σ n % U32)) ++ "\n" ++
      "label " ++ ("T_" ++ hexU (σ n % U32)) ++ "\n" ++
      (renderBlock σ yes ((renderBlock σ no (n + 1)).2)).1 ++ "\n" ++
      "label " ++ ("D_" ++ hexU (σ n % U32))) ∧
    (no = [] →
      (renderStmt σ (Stmt.If cond yes no) n).1 =
        (renderStmt σ (Stmt.Br ("T_" ++ hexU (σ n % U32)) cond) n).1 ++ "\n" ++
        uncondLine ("D_" ++ hexU (σ n % U32)) ++ "\n" ++
        "label " ++ ("T_" ++ hexU (σ n % U32)) ++ "\n" ++
        (renderBlock σ yes (n + 1)).1 ++ "\n" ++
        "label " ++ ("D_" ++ hexU (σ n % U32))) ∧
    (no ≠ [] →
      (renderStmt σ (Stmt.If cond yes no) n).1 =
        (renderStmt σ (Stmt.Br ("T_" ++ hexU (σ n % U32)) cond) n).1 ++ "\n" ++
        ((renderBlock σ no (n + 1)).1 ++ "\n") ++
        uncondLine ("D_" ++ hexU (σ n % U32)) ++ "\n" ++
        "label " ++ ("T_" ++ hexU (σ n % U32)) ++ "\n" ++
        (renderBlock σ yes ((renderBlock σ no (n + 1)).2)).1 ++ "\n" ++
        "label " ++ ("D_" ++ hexU (σ n % U32))) := by
  refine ⟨rfl, ?_, ?_⟩
  · intro hno
    subst hno
    apply String.ext
    simp [renderStmt, renderBlock, String.data_append, List.append_assoc]
  · intro hno
    have he : no.isEmpty = false := by
      cases no with
      | nil => exact absurd rfl hno
      | cons a t => rfl
    simp only [renderStmt, he, Bool.false_eq_true, if_false]

/-- C7, witness: the two conditional layouts at concrete inputs — an `If`
with an empty else-block omits the else preamble, and an `If` with the
one-statement else-block `[Hf R1]` renders it followed by the skip jump,
immediately before the then-label. -/
theorem c7_if_layout_witness :
    ((renderStmt (fun _ => 0)
        (Stmt.If ⟨Val.Reg Reg.R0, Val.Im 0, Cmp.Eq⟩ [] []) 0).1 =
      "80 0 0 T_0\n16 0 0 D_0\nlabel T_0\n\nlabel D_0") ∧
    ((renderStmt (fun _ => 0)
        (Stmt.If ⟨Val.Reg Reg.R0, Val.Im 0, Cmp.Eq⟩ [] [Stmt.Hf Reg.R1]) 0).1 =
      "80 0 0 T_0\n15 0 0 1\n16 0 0 D_0\nlabel T_0\n\nlabel D_0") := by
  constructor
  · have h := (c7_if_layout ⟨Val.Reg Reg.R0, Val.Im 0, Cmp.Eq⟩ [] []
      (fun _ => 0) 0).2.1 rfl
    exact h.trans (by decide)
  · have h := (c7_if_layout ⟨Val.Reg Reg.R0, Val.Im 0, Cmp.Eq⟩ [] [Stmt.Hf Reg.R1]
      (fun _ => 0) 0).2.2 (List.cons_ne_nil _ _)
    exact h.trans (by decide)

/-- C8.  `Args` renders, for each of registers 1, 2, 3, 4 in that order, a
stack-pointer bump (`65 5 1 5`) immediately followed by the rendering of
`Save{addr: Reg R5, val: Reg Rk}`, the store of that register to the cell
addressed by the stack pointer; `Ret` renders an initial return-address
load, then restores registers 4, 3, 2, 1 in that order through renderings
of `Load{addr: Reg R5, reg}` with the stack-pointer decrement line
`64 5 1 5` between consecutive loads, and ends with the unconditional jump
`64 0 0 6` through the return-address register (index 6). -/
theorem c8_args_ret (σ : Nat → Nat) (n : Nat) :
    ((stmtLines σ Stmt.Args n).1 =
      ["65 5 1 5", "7 5 1 0", "65 5 1 5", "7 5 2 0",
       "65 5 1 5", "7 5 3 0", "65 5 1 5", "7 5 4 0"]) ∧
    ((stmtLines σ Stmt.Ret n).1 =
      ["6 5 0 0", "64 5 1 5", "6 5 0 4", "64 5 1 5", "6 5 0 3", "64 5 1 5",
       "6 5 0 2", "64 5 1 5", "6 5 0 1", "64 5 1 5", "64 0 0 6"]) ∧
    ("7 5 1 0" = (renderStmt σ (Stmt.Save (Val.Reg Reg.R5) (Val.Reg Reg.R1)) n).1) ∧
    ("7 5 2 0" = (renderStmt σ (Stmt.Save (Val.Reg Reg.R5) (Val.Reg Reg.R2)) n).1) ∧
    ("7 5 3 0" = (renderStmt σ (Stmt.Save (Val.Reg Reg.R5) (Val.Reg Reg.R3)) n).1) ∧
    ("7 5 4 0" = (renderStmt σ (Stmt.Save (Val.Reg Reg.R5) (Val.Reg Reg.R4)) n).1) ∧
    ("6 5 0 4" = (renderStmt σ (Stmt.Load (Val.Reg Reg.R5) Reg.R4) n).1) ∧
    ("6 5 0 3" = (renderStmt σ (Stmt.Load (Val.Reg Reg.R5) Reg.R3) n).1) ∧
    ("6 5 0 2" = (renderStmt σ (Stmt.Load (Val.Reg Reg.R5) Reg.R2) n).1) ∧
    ("6 5 0 1" = (renderStmt σ (Stmt.Load (Val.Reg Reg.R5) Reg.R1) n).1) ∧
    ((renderStmt σ Stmt.Args n).1 =
      "65 5 1 5\n7 5 1 0\n65 5 1 5\n7 5 2 0\n65 5 1 5\n7 5 3 0\n65 5 1 5\n7 5 4 0") ∧
    ((renderStmt σ Stmt.Ret n).1 =
      "6 5 0 0\n64 5 1 5\n6 5 0 4\n64 5 1 5\n6 5 0 3\n64 5 1 5\n6 5 0 2\n64 5 1 5\n6 5 0 1\n64 5 1 5\n64 0 0 6") := by
  refine ⟨rfl, rfl, rfl, rfl, rfl, rfl, rfl, rfl, rfl, rfl, rfl, rfl⟩

/-- C2.  The unconditional branch synthesized by the structured-control
lowering is the line `16 0 0 <label>`: a branch on the equal-comparison
with both operand fields 0 and no immediate flags set, identical to the
rendering of `Br{label, cond: (Reg R0, Reg R0, Eq)}` — not to the
rendering of `Br{label, cond: (Im 0, Im 0, Eq)}`, whose packed opcode
would be 16 + 128 + 64.  The last conjunct exhibits the `Loop` lowering
using exactly this line. -/
theorem c2_uncond_branch (lbl : String) (σ : Nat → Nat) (n : Nat) (block : List Stmt) :
    (uncondLine lbl =
      (renderStmt σ (Stmt.Br lbl ⟨Val.Reg Reg.R0, Val.Reg Reg.R0, Cmp.Eq⟩) n).1) ∧
    (uncondLine lbl = numStr 16 ++ " 0 0 " ++ lbl) ∧
    (fixB (Cmp.toNum Cmp.Eq) (Val.Reg Reg.R0) (Val.Reg Reg.R0) = 16) ∧
    (fixB (Cmp.toNum Cmp.Eq) (Val.Im 0) (Val.Im 0) = 16 + 128 + 64) ∧
    ((renderStmt σ (Stmt.Loop block) n).1 =
      "label " ++ ("L_" ++ hexU (σ n % U32)) ++ "\n" ++
      (renderBlock σ block (n + 1)).1 ++ "\n" ++
      uncondLine ("L_" ++ hexU (σ n % U32))) :=
  ⟨rfl, rfl, rfl, rfl, rfl⟩

/-- C2, counterexample to the claim as stated: in the lowering of
`Loop []` the synthesized unconditional branch line is `16 0 0 L_0`,
which is not the rendering of `Br{label: L_0, cond: (Im 0, Im 0, Eq)}`
(that rendering is `208 0 0 L_0`, opcode 16 + 128 + 64 = 208). -/
theorem c2_counterexample :
    (renderStmt (fun _ => 0) (Stmt.Br "L_0" ⟨Val.Im 0, Val.Im 0, Cmp.Eq⟩) 0).1 =
      "208 0 0 L_0" ∧
    (renderStmt (fun _ => 0) (Stmt.Loop []) 0).1 = "label L_0\n\n16 0 0 L_0" ∧
    uncondLine "L_0" = "16 0 0 L_0" ∧
    ("16 0 0 L_0" : String) ≠ "208 0 0 L_0" ∧
    (16 + 128 + 64 : Nat) = 208 := by
  refine ⟨by decide, by decide, by decide, by decide, by decide⟩

/-- C1.  The label-uniqueness contract fails on the code: labels are
minted from the wall-clock nanosecond stamp (`get_stamp`), so when two
back-to-back `Loop` constructs are rendered within the same clock tick
(the stream of `u32`-truncated readings returns the same value, here 0,
twice) both mint the generated label name `L_0`; the program's generated
label names are `["L_0", "L_0"]`, which are not pairwise distinct, and the
rendered output declares `label L_0` twice. -/
theorem c1_label_collision :
    (genLabelsList (fun _ => 0) [Stmt.Loop [], Stmt.Loop []] 0).1 = ["L_0", "L_0"] ∧
    ¬ (genLabelsList (fun _ => 0) [Stmt.Loop [], Stmt.Loop []] 0).1.Nodup ∧
    (renderBlock (fun _ => 0) [Stmt.Loop [], Stmt.Loop []] 0).1 =
      "label L_0\n\n16 0 0 L_0\nlabel L_0\n\n16 0 0 L_0" ∧
    (genLabels (fun _ => 0) (Stmt.Loop []) 0).1 = ["L_0"] ∧
    (genLabels (fun _ => 0) (Stmt.Loop []) 1).1 = ["L_0"] := by
  refine ⟨by decide, by decide, by decide, by decide, by decide⟩

/-- C3, counterexample to the claim as stated: rendering the §8 round-trip
program yields the add line `64 0 1 0` — opcode field 64 (add base 0 plus
the immediate-right flag 64), not opcode field 0; the line `0 0 1 0`
claimed by the spec appears nowhere in the output. -/
theorem c3_counterexample :
    (renderStmt (fun _ => 0) c3prog 0).1 =
      "80 0 0 T_0\n16 0 0 D_0\nlabel T_0\n64 0 1 0\nlabel D_0" ∧
    (stmtLines (fun _ => 0) c3prog 0).1 =
      ["80 0 0 T_0", "16 0 0 D_0", "label T_0", "64 0 1 0", "label D_0"] ∧
    "0 0 1 0" ∉ (stmtLines (fun _ => 0) c3prog 0).1 ∧
    fields "64 0 1 0" = ["64", "0", "1", "0"] ∧
    fixB (Bop.toNum Bop.Add) (Val.Reg Reg.R0) (Val.Im 1) = 64 := by
  refine ⟨by decide, by decide, by decide, by decide, by decide⟩

/-- C3, amended.  Rendering the §8 round-trip program produces, in this
exact order: the branch-on-eq line `80 0 0 T` (eq opcode 16 plus the
immediate-right flag 64) targeting the true-label, the unconditional jump
`16 0 0 D` targeting the done-label, the true-label line, the add line
`64 0 1 0` (opcode field 64 = add base 0 + immediate-right flag 64,
operands 0 and 1, destination 0), and the done-label line. -/
theorem c3_amended (σ : Nat → Nat) (n : Nat) :
    ((stmtLines σ c3prog n).1 =
      [line3l 80 0 0 ("T_" ++ hexU (σ n % U32)),
       uncondLine ("D_" ++ hexU (σ n % U32)),
       "label " ++ ("T_" ++ hexU (σ n % U32)),
       line4 64 0 1 0,
       "label " ++ ("D_" ++ hexU (σ n % U32))]) ∧
    ((renderStmt σ c3prog n).1 =
      line3l 80 0 0 ("T_" ++ hexU (σ n % U32)) ++ "\n" ++
      uncondLine ("D_" ++ hexU (σ n % U32)) ++ "\n" ++
      "label " ++ ("T_" ++ hexU (σ n % U32)) ++ "\n" ++
      line4 64 0 1 0 ++ "\n" ++
      "label " ++ ("D_" ++ hexU (σ n % U32))) := by
  constructor
  · rfl
  · apply String.ext
    simp [renderStmt, renderBlock, c3prog, fixB, Val.isIm, Cmp.toNum,
      Bop.toNum, Val.toNum, Reg.toNum, String.data_append, List.append_assoc]

/-- C9.  Rendering is deterministic up to the generated label names: the
output depends on the clock stream only through the hex stamp strings
that form the generated label names, so two renders (e.g. a re-render
with label state reset) whose successive generated stamp strings agree
are byte-identical; and a statement that is not a structured construct
(and hence contains no `While`, `If` or `Loop`) renders byte-identically
under any two clock streams and counter positions. -/
theorem c9_determinism (s : Stmt) (σ₁ σ₂ : Nat → Nat) (n₁ n₂ : Nat) :
    (isStructured s = false →
      (renderStmt σ₁ s n₁).1 = (renderStmt σ₂ s n₂).1) ∧
    ((∀ k, hexU (σ₁ (n₁ + k) % U32) = hexU (σ₂ (n₂ + k) % U32)) →
      (renderStmt σ₁ s n₁).1 = (renderStmt σ₂ s n₂).1) := by
  constructor
  · intro hs
    cases s <;> first | exact Bool.noConfusion hs | rfl
  · intro h
    exact render_congr.1 s σ₁ σ₂ n₁ n₂ h

/-- C9, witness: a leaf statement (`Args`) renders identically under two
different clock streams and counter positions, and a structured statement
(`Loop []`) renders identically under two streams that agree on their
truncated stamps. -/
theorem c9_determinism_witness :
    (renderStmt (fun _ => 5) Stmt.Args 0).1 = (renderStmt (fun _ => 9) Stmt.Args 7).1 ∧
    (renderStmt (fun _ => 3) (Stmt.Loop []) 2).1 =
      (renderStmt (fun _ => 3) (Stmt.Loop []) 4).1 :=
  ⟨(c9_determinism Stmt.Args (fun _ => 5) (fun _ => 9) 0 7).1 rfl,
   (c9_determinism (Stmt.Loop []) (fun _ => 3) (fun _ => 3) 2 4).2 (fun _ => rfl)⟩

/-- C4, counterexample to the claim as stated: the final line of
`Call("foo")` is `64 foo 0 6`, which carries the symbolic callee label in
the OPERAND1 field — it is neither a label line nor a line whose first
three fields are numeric byte values, so the §6 line contract
(`lineSpecOk`) fails on it, while ordinary lines do satisfy the
contract. -/
theorem c4_counterexample :
    (renderStmt (fun _ => 0) (Stmt.Call "foo") 0).1 =
      "64 6 8 0\n7 5 0 0\n64 foo 0 6\n" ∧
    "64 foo 0 6" ∈ (stmtLines (fun _ => 0) (Stmt.Call "foo") 0).1 ∧
    lineSpecOk "64 foo 0 6" = false ∧
    fields "64 foo 0 6" = ["64", "foo", "0", "6"] ∧
    ("foo".data.all Char.isDigit) = false ∧
    lineSpecOk "64 6 8 0" = true ∧
    lineSpecOk "7 5 0 0" = true ∧
    lineSpecOk "80 0 0 T_0" = true ∧
    lineSpecOk "label T_0" = true := by
  refine ⟨by decide, by decide, by decide, by decide, by decide, by decide,
    by decide, by decide, by decide⟩

/-- C4, amended.  Every line of rendered output is a `label` pseudo-line,
an empty line (the join of an empty structured block, or the tail of
`Call`'s trailing newline), a four-field line `OPCODE OPERAND1 OPERAND2
DEST` whose fields are all base-10 byte values, a branch line (opcode a
comparison code 16–21 up to the immediate flags 128/64) whose DEST is a
symbolic label, or `Call`'s final jump line `64 <label> 0 6`, which
carries the symbolic callee name in the OPERAND1 field. -/
theorem c4_line_shape (σ : Nat → Nat) (s : Stmt) (n : Nat) :
    ∀ l ∈ (stmtLines σ s n).1, lineOkAmended l :=
  lines_shape.1 s σ n

/-- C4, witness: the amended shape theorem applied to the add line of a
concrete `Bin` statement. -/
theorem c4_line_shape_witness :
    lineOkAmended "64 0 1 0" := by
  have h := c4_line_shape (fun _ => 0)
    (Stmt.Bin Bop.Add (Val.Reg Reg.R0) (Val.Im 1) Reg.R0) 0 "64 0 1 0"
    (by decide)
  exact h

/-- C10, counterexample to the claim as stated: `Call` does end with a
trailing newline, but it is not the only such statement — a `Label`
whose name itself ends with a newline character (allowed by the AST,
whose label names are arbitrary strings) also renders to output ending
in a newline. -/
theorem c10_counterexample :
    endsNl (renderStmt (fun _ => 0) (Stmt.Call "f") 0).1 = true ∧
    (renderStmt (fun _ => 0) (Stmt.Label "x\n") 0).1 = "label x\n" ∧
    endsNl (renderStmt (fun _ => 0) (Stmt.Label "x\n") 0).1 = true ∧
    endsNl (renderStmt (fun _ => 0) Stmt.Args 0).1 = false ∧
    endsNl (renderStmt (fun _ => 0) Stmt.Ret 0).1 = false ∧
    endsNlSpec (Stmt.Label "x\n") = true := by
  refine ⟨by decide, by decide, by decide, by decide, by decide, by decide⟩

/-- C10, amended.  A statement's rendering ends with a trailing newline
exactly as `endsNlSpec` says: always for `Call`; for `Label` and `Br`
exactly when the embedded label string itself ends with a newline; and
never for any other variant — in particular `Args` and `Ret`, though
multi-line, end without a trailing newline, and for statements whose
label strings are newline-free `Call` is the only variant ending in a
newline. -/
theorem c10_trailing_newline (s : Stmt) (σ : Nat → Nat) (n : Nat) :
    endsNl (renderStmt σ s n).1 = endsNlSpec s := by
  cases s with
  | Bin op l r d =>
      exact endsNl_of_ne _ (lastChar_sp_tail _ _ (numStr_ne_nil (regToNum_lt d))
        (lastChar_numStr_ne_nl (regToNum_lt d)))
  | Un op v d =>
      exact endsNl_of_ne _ (lastChar_sp_tail _ _ (numStr_ne_nil (regToNum_lt d))
        (lastChar_numStr_ne_nl (regToNum_lt d)))
  | Save a v =>
      exact endsNl_of_ne _ (lastChar_sp_tail _ _ (numStr_ne_nil (by decide))
        (lastChar_numStr_ne_nl (by decide)))
  | Load a r =>
      exact endsNl_of_ne _ (lastChar_sp_tail _ _ (numStr_ne_nil (regToNum_lt r))
        (lastChar_numStr_ne_nl (regToNum_lt r)))
  | Hf d =>
      exact endsNl_of_ne _ (lastChar_sp_tail _ _ (numStr_ne_nil (regToNum_lt d))
        (lastChar_numStr_ne_nl (regToNum_lt d)))
  | Label l =>
      exact endsNl_append_str "label " l (by decide)
  | Br lbl c =>
      exact endsNl_append_str _ lbl (lastChar_sp_tail _ " " (by decide) (by decide))
  | Call s =>
      show endsNl ("64 6 8 0\n" ++ numStr SAVE ++ " 5 0 0\n64 " ++ s ++ " 0 6\n") = true
      rw [endsNl, lastChar_append_of_ne_nil _ " 0 6\n" (by decide)]
      decide
  | Args =>
      exact endsNl_of_ne _ (lastChar_sp_tail _ " 5 4 0" (by decide) (by decide))
  | Ret =>
      exact endsNl_of_ne _
        (lastChar_sp_tail _ " 5 0 1\n64 5 1 5\n64 0 0 6" (by decide) (by decide))
  | While c b =>
      have hE : ("E_" ++ hexU (σ n % U32)).data ≠ [] := by
        simp [String.data_append, hexU_ne_nil]
      exact endsNl_of_ne _ (lastChar_sp_tail _ _ hE
        (lastChar_sp_tail _ _ (hexU_ne_nil _) (lastChar_hexU_ne_nl _)))
  | If c yes no =>
      have hD : ("D_" ++ hexU (σ n % U32)).data ≠ [] := by
        simp [String.data_append, hexU_ne_nil]
      exact endsNl_of_ne _ (lastChar_sp_tail _ _ hD
        (lastChar_sp_tail _ _ (hexU_ne_nil _) (lastChar_hexU_ne_nl _)))
  | Loop b =>
      have hL : ("L_" ++ hexU (σ n % U32)).data ≠ [] := by
        simp [String.data_append, hexU_ne_nil]
      have hu : (uncondLine ("L_" ++ hexU (σ n % U32))).data ≠ [] := by
        simp [uncondLine, String.data_append, hexU_ne_nil]
      exact endsNl_of_ne _ (lastChar_sp_tail _ _ hu
        (lastChar_sp_tail _ _ hL
          (lastChar_sp_tail _ _ (hexU_ne_nil _) (lastChar_hexU_ne_nl _))))

end AsmLeg
